import Mathlib

/-!
Shallow embedding of the elimination-backoff stack (Rust crate
`elimination-backoff-stack`): the strategy state machines from
`src/strategy.rs`, the Treiber stack loops from `src/treiber_stack.rs`,
the exchanger protocol from `src/exchanger.rs`, the elimination array from
`src/elimination_array.rs`, and the composite `Stack` push/pop loops from
`src/lib.rs`.  Machine integers (`usize`, `u8`) are modelled as `Nat`;
the translated code never exceeds `u8`/`usize` range on the inputs the
theorems use, except where a theorem is explicitly about the overflow.
Concurrency is modelled by explicit oracles: a list of CAS outcomes and
slot observations stands for the interference of other threads between
the atomic steps of the operation under study.
-/

namespace EBStack

/-- `MAX_RETRY_EXPONENT` from src/strategy.rs line 261. -/
def MAX_RETRY_EXPONENT : Nat := 5

/-- State of `ExpRetryStrategy` (src/strategy.rs lines 245-259).
`retry_exponent` is a `u8` in Rust, the counters are `usize`; all are
modelled as `Nat`. `Default` zero-initialises every field. -/
structure ExpRetryStrategy where
  retry_exponent : Nat
  treiber_stack_push_cnt : Nat
  treiber_stack_pop_cnt : Nat
  elimination_array_push_cnt : Nat
  elimination_array_pop_cnt : Nat
  exchanger_try_start_exchange_cnt : Nat
  exchanger_retry_check_exchanged_cnt : Nat
  exchanger_try_pop_exchange_cnt : Nat
deriving DecidableEq, Repr

/-- `ExpRetryStrategy::new` = `Default::default()` (all zero). -/
def ExpRetryStrategy.new : ExpRetryStrategy :=
  ⟨0, 0, 0, 0, 0, 0, 0, 0⟩

/-- `treiber_stack::PushStrategy::try_push` for `ExpRetryStrategy`
(src/strategy.rs lines 294-306). -/
def ExpRetryStrategy.treiberTryPush (s : ExpRetryStrategy) :
    Bool × ExpRetryStrategy :=
  if s.treiber_stack_push_cnt = 1 then
    (false, { s with
      retry_exponent := min (s.retry_exponent + 1) MAX_RETRY_EXPONENT,
      treiber_stack_push_cnt := 0 })
  else
    (true, { s with treiber_stack_push_cnt := s.treiber_stack_push_cnt + 1 })

/-- `treiber_stack::PopStrategy::try_pop` for `ExpRetryStrategy`
(src/strategy.rs lines 314-326). -/
def ExpRetryStrategy.treiberTryPop (s : ExpRetryStrategy) :
    Bool × ExpRetryStrategy :=
  if s.treiber_stack_pop_cnt = 1 then
    (false, { s with
      retry_exponent := min (s.retry_exponent + 1) MAX_RETRY_EXPONENT,
      treiber_stack_pop_cnt := 0 })
  else
    (true, { s with treiber_stack_pop_cnt := s.treiber_stack_pop_cnt + 1 })

/-- `elimination_array::PushStrategy::try_push` for `ExpRetryStrategy`
(src/strategy.rs lines 331-339): budget `2 << retry_exponent`. -/
def ExpRetryStrategy.elimTryPush (s : ExpRetryStrategy) :
    Bool × ExpRetryStrategy :=
  if 2 <<< s.retry_exponent ≤ s.elimination_array_push_cnt then
    (false, { s with elimination_array_push_cnt := 0 })
  else
    (true, { s with
      elimination_array_push_cnt := s.elimination_array_push_cnt + 1 })

/-- `elimination_array::PopStrategy::try_pop` for `ExpRetryStrategy`
(src/strategy.rs lines 353-361). -/
def ExpRetryStrategy.elimTryPop (s : ExpRetryStrategy) :
    Bool × ExpRetryStrategy :=
  if 2 <<< s.retry_exponent ≤ s.elimination_array_pop_cnt then
    (false, { s with elimination_array_pop_cnt := 0 })
  else
    (true, { s with
      elimination_array_pop_cnt := s.elimination_array_pop_cnt + 1 })

/-- `num_exchangers` for `ExpRetryStrategy` (src/strategy.rs lines 341-343):
`(1 << retry_exponent).min(total)`.  The Rust method takes `&mut self` but
never mutates, so it is modelled as a pure function. -/
def ExpRetryStrategy.numExchangers (s : ExpRetryStrategy) (total : Nat) : Nat :=
  min (1 <<< s.retry_exponent) total

/-- `exchanger::PushStrategy::try_start_exchange` for `ExpRetryStrategy`
(src/strategy.rs lines 372-384). -/
def ExpRetryStrategy.tryStartExchange (s : ExpRetryStrategy) :
    Bool × ExpRetryStrategy :=
  if s.exchanger_try_start_exchange_cnt = 1 then
    (false, { s with
      retry_exponent := min (s.retry_exponent + 1) MAX_RETRY_EXPONENT,
      exchanger_try_start_exchange_cnt := 0 })
  else
    (true, { s with
      exchanger_try_start_exchange_cnt := s.exchanger_try_start_exchange_cnt + 1 })

/-- `exchanger::PushStrategy::retry_check_exchanged` for `ExpRetryStrategy`
(src/strategy.rs lines 387-408).  The `spin_loop_hint` calls have no
observable effect and are dropped. -/
def ExpRetryStrategy.retryCheckExchanged (s : ExpRetryStrategy) :
    Bool × ExpRetryStrategy :=
  if s.exchanger_retry_check_exchanged_cnt = 10 * s.retry_exponent then
    (false, { s with
      retry_exponent := s.retry_exponent - 2,
      exchanger_retry_check_exchanged_cnt := 0 })
  else
    (true, { s with
      exchanger_retry_check_exchanged_cnt :=
        s.exchanger_retry_check_exchanged_cnt + 1 })

/-- `exchanger::PopStrategy::try_exchange` for `ExpRetryStrategy`
(src/strategy.rs lines 416-424). -/
def ExpRetryStrategy.tryExchange (s : ExpRetryStrategy) :
    Bool × ExpRetryStrategy :=
  if s.exchanger_try_pop_exchange_cnt = 1 then
    (false, { s with exchanger_try_pop_exchange_cnt := 0 })
  else
    (true, { s with
      exchanger_try_pop_exchange_cnt := s.exchanger_try_pop_exchange_cnt + 1 })

/-- `exchanger::PopStrategy::on_contention` for `ExpRetryStrategy`
(src/strategy.rs lines 426-428): note the source uses
`(retry_exponent + 1).max(MAX_RETRY_EXPONENT)`, i.e. `max`, not `min`. -/
def ExpRetryStrategy.onContention (s : ExpRetryStrategy) : ExpRetryStrategy :=
  { s with retry_exponent := max (s.retry_exponent + 1) MAX_RETRY_EXPONENT }

/-- `exchanger::PopStrategy::on_no_contention` for `ExpRetryStrategy`
(src/strategy.rs lines 430-432): `saturating_sub(2)` is `Nat` subtraction. -/
def ExpRetryStrategy.onNoContention (s : ExpRetryStrategy) : ExpRetryStrategy :=
  { s with retry_exponent := s.retry_exponent - 2 }

/-- State of `BackAndForthStrategy` (src/strategy.rs lines 30-41). -/
structure BackAndForthStrategy where
  treiber_stack_push_cnt : Nat
  treiber_stack_pop_cnt : Nat
  elimination_array_push_cnt : Nat
  elimination_array_pop_cnt : Nat
  exchanger_start_push_cnt : Nat
  exchanger_retry_check_success_cnt : Nat
  exchanger_try_pop_cnt : Nat
deriving DecidableEq, Repr

/-- `BackAndForthStrategy::new` (all zero). -/
def BackAndForthStrategy.new : BackAndForthStrategy := ⟨0, 0, 0, 0, 0, 0, 0⟩

/-- `num_exchangers` for `BackAndForthStrategy`: it does not override the
trait default (src/elimination_array.rs lines 76-78 and 87-89), which
returns `total`. -/
def BackAndForthStrategy.numExchangers (_s : BackAndForthStrategy)
    (total : Nat) : Nat :=
  total

/-- State of `NoEliminationStrategy` (src/strategy.rs lines 153-157). -/
structure NoEliminationStrategy where
  treiber_stack_push_cnt : Nat
  treiber_stack_pop_cnt : Nat
deriving DecidableEq, Repr

/-- `NoEliminationStrategy::new` (all zero). -/
def NoEliminationStrategy.new : NoEliminationStrategy := ⟨0, 0⟩

/-- `treiber_stack::PushStrategy::try_push` for `NoEliminationStrategy`
(src/strategy.rs lines 186-194). -/
def NoEliminationStrategy.treiberTryPush (s : NoEliminationStrategy) :
    Bool × NoEliminationStrategy :=
  if s.treiber_stack_push_cnt = 1 then
    (false, { s with treiber_stack_push_cnt := 0 })
  else
    (true, { s with treiber_stack_push_cnt := s.treiber_stack_push_cnt + 1 })

/-- `treiber_stack::PopStrategy::try_pop` for `NoEliminationStrategy`
(src/strategy.rs lines 198-206). -/
def NoEliminationStrategy.treiberTryPop (s : NoEliminationStrategy) :
    Bool × NoEliminationStrategy :=
  if s.treiber_stack_pop_cnt = 1 then
    (false, { s with treiber_stack_pop_cnt := 0 })
  else
    (true, { s with treiber_stack_pop_cnt := s.treiber_stack_pop_cnt + 1 })

/-- `use_elimination_array` for `NoEliminationStrategy`
(src/strategy.rs lines 170-172 and 180-182): constantly `false`. -/
def NoEliminationStrategy.useElim (s : NoEliminationStrategy) :
    Bool × NoEliminationStrategy :=
  (false, s)

/-- `elimination_array::PushStrategy::try_push` for `NoEliminationStrategy`
(src/strategy.rs lines 210-212): constantly `false`. -/
def NoEliminationStrategy.elimTryPush (s : NoEliminationStrategy) :
    Bool × NoEliminationStrategy :=
  (false, s)

/-- `elimination_array::PopStrategy::try_pop` for `NoEliminationStrategy`
(src/strategy.rs lines 216-218): constantly `false`. -/
def NoEliminationStrategy.elimTryPop (s : NoEliminationStrategy) :
    Bool × NoEliminationStrategy :=
  (false, s)

/-- `try_start_exchange` for `NoEliminationStrategy`
(src/strategy.rs lines 222-224): constantly `false`. -/
def NoEliminationStrategy.tryStartExchange (s : NoEliminationStrategy) :
    Bool × NoEliminationStrategy :=
  (false, s)

/-- `retry_check_exchanged` for `NoEliminationStrategy`
(src/strategy.rs lines 226-228): constantly `false`. -/
def NoEliminationStrategy.retryCheckExchanged (s : NoEliminationStrategy) :
    Bool × NoEliminationStrategy :=
  (false, s)

/-- `try_exchange` for `NoEliminationStrategy`
(src/strategy.rs lines 232-234): constantly `false`. -/
def NoEliminationStrategy.tryExchange (s : NoEliminationStrategy) :
    Bool × NoEliminationStrategy :=
  (false, s)

/-- `num_exchangers` for `NoEliminationStrategy`: trait default, `total`. -/
def NoEliminationStrategy.numExchangers (_s : NoEliminationStrategy)
    (total : Nat) : Nat :=
  total

/-- Counts how many consecutive `true` results a stateful boolean hook
produces from a given state, inspecting at most `fuel` calls. -/
def consecTrue {σ : Type} (h : σ → Bool × σ) : Nat → σ → Nat
  | 0, _ => 0
  | fuel + 1, st =>
    if (h st).1 then consecTrue h fuel (h st).2 + 1 else 0

/-- An `ExpRetryStrategy` state with exponent `e` and every counter zero. -/
def expState (e : Nat) : ExpRetryStrategy :=
  { ExpRetryStrategy.new with retry_exponent := e }

lemma consecTrue_elimTryPush (k : Nat) :
    ∀ s : ExpRetryStrategy,
      s.elimination_array_push_cnt + k = 2 <<< s.retry_exponent →
      consecTrue ExpRetryStrategy.elimTryPush (k + 1) s = k := by
  induction k with
  | zero =>
    intro s hs
    simp only [Nat.add_zero] at hs
    simp [consecTrue, ExpRetryStrategy.elimTryPush, hs]
  | succ k ih =>
    intro s hs
    have hnot : ¬ 2 <<< s.retry_exponent ≤ s.elimination_array_push_cnt := by omega
    have h1 : ExpRetryStrategy.elimTryPush s =
        (true, { s with
          elimination_array_push_cnt := s.elimination_array_push_cnt + 1 }) := by
      simp [ExpRetryStrategy.elimTryPush, hnot]
    rw [consecTrue, h1]
    simp only [if_true]
    rw [ih _ (by simp; omega)]

lemma consecTrue_elimTryPop (k : Nat) :
    ∀ s : ExpRetryStrategy,
      s.elimination_array_pop_cnt + k = 2 <<< s.retry_exponent →
      consecTrue ExpRetryStrategy.elimTryPop (k + 1) s = k := by
  induction k with
  | zero =>
    intro s hs
    simp only [Nat.add_zero] at hs
    simp [consecTrue, ExpRetryStrategy.elimTryPop, hs]
  | succ k ih =>
    intro s hs
    have hnot : ¬ 2 <<< s.retry_exponent ≤ s.elimination_array_pop_cnt := by omega
    have h1 : ExpRetryStrategy.elimTryPop s =
        (true, { s with
          elimination_array_pop_cnt := s.elimination_array_pop_cnt + 1 }) := by
      simp [ExpRetryStrategy.elimTryPop, hnot]
    rw [consecTrue, h1]
    simp only [if_true]
    rw [ih _ (by simp; omega)]

/-- C6 (code_bug evidence): the claim states the exponent never leaves
`[0, 5]`, with the pop-side `on_contention` saturating at 5.  The source
(src/strategy.rs line 427) computes `(retry_exponent + 1).max(MAX_RETRY_EXPONENT)`:
starting from the reachable state with exponent 5 (five Treiber-congestion
increments from a fresh strategy), one `on_contention` call yields exponent 6,
exceeding the declared bound, while every `min`-clamped hook does respect it. -/
theorem c6_on_contention_exceeds_bound :
    (ExpRetryStrategy.onContention (expState 5)).retry_exponent = 6 ∧
    ¬ (ExpRetryStrategy.onContention (expState 5)).retry_exponent ≤
        MAX_RETRY_EXPONENT ∧
    (ExpRetryStrategy.treiberTryPush (expState 5)).2.retry_exponent ≤
        MAX_RETRY_EXPONENT ∧
    consecTrue ExpRetryStrategy.treiberTryPush 20 ExpRetryStrategy.new = 1 := by
  refine ⟨rfl, by decide, by decide, by decide⟩

/-- C7 (counterexample): the claim states that the Treiber-level `try_push`
returns `true` exactly `2·2^e` consecutive times.  On a fresh
`ExpRetryStrategy` (exponent 0) the budget would have to be 2, but
`try_push` (src/strategy.rs lines 294-306) grants exactly one `true`. -/
theorem c7_treiber_budget_not_exponential :
    consecTrue ExpRetryStrategy.treiberTryPush 20 ExpRetryStrategy.new = 1 ∧
    2 * 2 ^ ExpRetryStrategy.new.retry_exponent = 2 ∧
    (1 : Nat) ≠ 2 := by
  refine ⟨by decide, by decide, by decide⟩

/-- C7 (amended): the elimination-array-level `try_push` / `try_pop` hooks of
`ExpRetryStrategy` return `true` exactly `2·2^e` consecutive times before
returning `false` (for any exponent `e`, counters starting at 0), while the
Treiber-level `try_push` / `try_pop` hooks return `true` exactly once before
returning `false`. -/
theorem c7_retry_budgets :
    (∀ e : Nat,
      consecTrue ExpRetryStrategy.elimTryPush (2 * 2 ^ e + 1) (expState e) =
        2 * 2 ^ e) ∧
    (∀ e : Nat,
      consecTrue ExpRetryStrategy.elimTryPop (2 * 2 ^ e + 1) (expState e) =
        2 * 2 ^ e) ∧
    consecTrue ExpRetryStrategy.treiberTryPush 20 ExpRetryStrategy.new = 1 ∧
    consecTrue ExpRetryStrategy.treiberTryPop 20 ExpRetryStrategy.new = 1 := by
  have hshift : ∀ e : Nat, 2 <<< e = 2 * 2 ^ e := by
    intro e; rw [Nat.shiftLeft_eq]
  refine ⟨?_, ?_, by decide, by decide⟩
  · intro e
    have := consecTrue_elimTryPush (2 <<< e) (expState e) (by simp [expState, ExpRetryStrategy.new])
    rwa [hshift] at this
  · intro e
    have := consecTrue_elimTryPop (2 <<< e) (expState e) (by simp [expState, ExpRetryStrategy.new])
    rwa [hshift] at this

/-- C8: for every provided strategy and every state (hence in particular
every state reachable through the hooks), `num_exchangers(total)` lies in
`[1, total]` whenever `total ≥ 1`.  `ExpRetryStrategy` computes
`(1 << retry_exponent).min(total)`; `BackAndForthStrategy` and
`NoEliminationStrategy` use the trait default, `total`. -/
theorem c8_num_exchangers_in_range :
    (∀ (s : ExpRetryStrategy) (total : Nat), 1 ≤ total →
      1 ≤ s.numExchangers total ∧ s.numExchangers total ≤ total) ∧
    (∀ (s : BackAndForthStrategy) (total : Nat), 1 ≤ total →
      1 ≤ s.numExchangers total ∧ s.numExchangers total ≤ total) ∧
    (∀ (s : NoEliminationStrategy) (total : Nat), 1 ≤ total →
      1 ≤ s.numExchangers total ∧ s.numExchangers total ≤ total) := by
  refine ⟨?_, ?_, ?_⟩
  · intro s total htotal
    unfold ExpRetryStrategy.numExchangers
    constructor
    · refine le_min ?_ htotal
      rw [Nat.shiftLeft_eq, one_mul]
      exact Nat.one_le_two_pow
    · exact min_le_right _ _
  · intro s total htotal
    exact ⟨htotal, le_rfl⟩
  · intro s total htotal
    exact ⟨htotal, le_rfl⟩

/-- Witness for `c8_num_exchangers_in_range` at a fresh `ExpRetryStrategy`,
a fresh `BackAndForthStrategy`, a fresh `NoEliminationStrategy` and
`total = 4`. -/
theorem c8_num_exchangers_in_range_witness :
    (1 ≤ ExpRetryStrategy.new.numExchangers 4 ∧
      ExpRetryStrategy.new.numExchangers 4 ≤ 4) ∧
    (1 ≤ BackAndForthStrategy.new.numExchangers 4 ∧
      BackAndForthStrategy.new.numExchangers 4 ≤ 4) ∧
    (1 ≤ NoEliminationStrategy.new.numExchangers 4 ∧
      NoEliminationStrategy.new.numExchangers 4 ≤ 4) :=
  ⟨c8_num_exchangers_in_range.1 ExpRetryStrategy.new 4 (by decide),
   c8_num_exchangers_in_range.2.1 BackAndForthStrategy.new 4 (by decide),
   c8_num_exchangers_in_range.2.2 NoEliminationStrategy.new 4 (by decide)⟩

/-!
Treiber stack (src/treiber_stack.rs).

`push` loops `while strategy.try_push()`: load `head`, store it into the
new node's `next`, CAS `head: old → node`; success returns `Ok(())`, failure
retries with the same node; exhaustion extracts the value back out of the
node and returns `Err(v)`.  Interference from other threads is modelled by
`cas : List Bool`, one entry per CAS attempt (`true` = the CAS succeeded).
The chain (`head → … → null`) is `List T`, top first; a failed CAS writes
nothing, so the chain only changes at the successful CAS.  `fuel` bounds
the number of loop iterations; `none` means the oracle/fuel ran out, never
a result of the source code.
-/

/-- `TreiberStack::push` (src/treiber_stack.rs lines 41-69) under a CAS
outcome oracle.  Returns the result, the strategy state, the chain and the
unconsumed oracle. -/
def treiberPushO {σ T : Type} (tp : σ → Bool × σ) :
    Nat → σ → List Bool → T → List T →
    Option (Except T Unit × σ × List T × List Bool)
  | 0, _, _, _, _ => none
  | fuel + 1, st, cas, v, chain =>
    let r := tp st
    if r.1 then
      match cas with
      | [] => none
      | ok :: cas' =>
        if ok then some (Except.ok (), r.2, v :: chain, cas')
        else treiberPushO tp fuel r.2 cas' v chain
    else
      some (Except.error v, r.2, chain, cas)

/-- `TreiberStack::pop` (src/treiber_stack.rs lines 72-94), pointer-level
model.  The head is loaded once into the snapshot `h0` (a node id, `none`
for null) before the loop; `data` maps node ids to values; `env` lists the
live value of `head` at each CAS attempt, and a CAS succeeds exactly when
the live head equals the snapshot.  The emptiness test and every CAS use
only the snapshot, as in the source. -/
def treiberPopSnap {σ T : Type} (tp : σ → Bool × σ) :
    Nat → σ → List (Option Nat) → Option Nat → (Nat → T) →
    Option (Except Unit (Option T) × σ)
  | 0, _, _, _, _ => none
  | fuel + 1, st, env, h0, data =>
    let r := tp st
    if r.1 then
      match h0 with
      | none => some (Except.ok none, r.2)
      | some h =>
        match env with
        | [] => none
        | live :: env' =>
          if live = some h then some (Except.ok (some (data h)), r.2)
          else treiberPopSnap tp fuel r.2 env' h0 data
    else
      some (Except.error (), r.2)

/-- A strategy whose `try_pop` always answers `false` (zero retry budget). -/
def alwaysFalseHook : Unit → Bool × Unit := fun s => (false, s)

/-- A strategy whose hook always answers `true`. -/
def alwaysTrueHook : Unit → Bool × Unit := fun s => (true, s)

/-- C3 (counterexample): the claim states that `TreiberStack::pop` on an
empty stack returns `Ok(None)` even for a strategy whose `try_pop` returns
`false` on the first call.  In the source the null check sits inside the
`while strategy.try_pop()` loop, so with a zero-budget strategy the call
returns `Err(())`, not `Ok(None)`. -/
theorem c3_empty_pop_needs_budget :
    treiberPopSnap alwaysFalseHook 3 () [] none (fun _ => (0 : Nat)) =
      some (Except.error (), ()) ∧
    (Except.error () : Except Unit (Option Nat)) ≠ Except.ok none :=
  ⟨rfl, fun h => Except.noConfusion h⟩

/-- C3 (amended): for every pop strategy whose first `try_pop` answers
`true`, `TreiberStack::pop` on an empty stack (null head snapshot) returns
`Ok(None)` immediately — no CAS is attempted and no further budget is
consumed; if the first `try_pop` answers `false`, it returns `Err(())`. -/
theorem c3_empty_pop :
    ∀ {σ T : Type} (tp : σ → Bool × σ) (st : σ) (fuel : Nat)
      (env : List (Option Nat)) (data : Nat → T),
      0 < fuel →
      ((tp st).1 = true →
        treiberPopSnap tp fuel st env none data =
          some (Except.ok none, (tp st).2)) ∧
      ((tp st).1 = false →
        treiberPopSnap tp fuel st env none data =
          some (Except.error (), (tp st).2)) := by
  intro σ T tp st fuel env data hfuel
  obtain ⟨f, rfl⟩ : ∃ f, fuel = f + 1 :=
    ⟨fuel - 1, (Nat.succ_pred_eq_of_pos hfuel).symm⟩
  constructor
  · intro htrue
    simp [treiberPopSnap, htrue]
  · intro hfalse
    simp [treiberPopSnap, hfalse]

/-- Witness for `c3_empty_pop`: an always-granting strategy on the empty
stack yields `Ok(None)`, a zero-budget strategy yields `Err(())`. -/
theorem c3_empty_pop_witness :
    treiberPopSnap alwaysTrueHook 1 () [] none (fun _ => (0 : Nat)) =
      some (Except.ok none, ()) ∧
    treiberPopSnap alwaysFalseHook 1 () [] none (fun _ => (0 : Nat)) =
      some (Except.error (), ()) :=
  ⟨(c3_empty_pop alwaysTrueHook () 1 [] (fun _ => 0) (by decide)).1 rfl,
   (c3_empty_pop alwaysFalseHook () 1 [] (fun _ => 0) (by decide)).2 rfl⟩

/-- C10: in `TreiberStack::pop` the head is loaded exactly once, into a
snapshot taken before the retry loop; the code is modelled by
`treiberPopSnap`, where the snapshot `h0` is fixed and each CAS compares
the live head against it.  Consequences proved here: (1) a `Ok(None)`
result forces the snapshot to be null, regardless of the live head values
(the emptiness check inspects only the snapshot); (2) a successful pop
returns the snapshot node's data, and the live head at some CAS attempt
equalled the snapshot — if the head never returns to the snapshot value,
no iteration of the call can succeed. -/
theorem c10_pop_snapshot :
    ∀ {σ T : Type} (tp : σ → Bool × σ) (fuel : Nat) (st : σ)
      (env : List (Option Nat)) (h0 : Option Nat) (data : Nat → T),
      (∀ st', treiberPopSnap tp fuel st env h0 data =
          some (Except.ok none, st') → h0 = none) ∧
      (∀ st' v h, h0 = some h →
        treiberPopSnap tp fuel st env h0 data =
          some (Except.ok (some v), st') →
        v = data h ∧ some h ∈ env) := by
  intro σ T tp fuel st env h0 data
  induction fuel generalizing st env with
  | zero => exact ⟨fun st' h => by simp [treiberPopSnap] at h,
      fun st' v h hh0 h' => by simp [treiberPopSnap] at h'⟩
  | succ f ih =>
    constructor
    · intro st' hres
      by_cases hb : (tp st).1
      · cases h0 with
        | none => rfl
        | some h =>
          simp only [treiberPopSnap, hb, if_true] at hres
          cases env with
          | nil => simp at hres
          | cons live env' =>
            by_cases hlive : live = some h
            · simp [hlive] at hres
            · simp only [if_neg hlive] at hres
              exact (ih _ env').1 st' hres
      · simp [treiberPopSnap, hb] at hres
    · intro st' v h hh0 hres
      subst hh0
      by_cases hb : (tp st).1
      · simp only [treiberPopSnap, hb, if_true] at hres
        cases env with
        | nil => simp at hres
        | cons live env' =>
          by_cases hlive : live = some h
          · simp only [if_pos hlive, Option.some.injEq, Prod.mk.injEq] at hres
            have hv := hres.1
            injection hv with hv1
            injection hv1 with hv2
            exact ⟨hv2.symm, by simp [hlive]⟩
          · simp only [if_neg hlive] at hres
            obtain ⟨h1, h2⟩ := (ih _ env').2 st' v h rfl hres
            exact ⟨h1, List.mem_cons_of_mem _ h2⟩
      · simp [treiberPopSnap, hb] at hres

/-- Witness for `c10_pop_snapshot`: a concrete run where the first CAS
fails (live head 9 differs from snapshot 7) and the second succeeds. -/
theorem c10_pop_snapshot_witness :
    (7 : Nat) = (fun n => n) 7 ∧ (some 7 ∈ [some 9, some 7]) :=
  (c10_pop_snapshot alwaysTrueHook 3 () [some 9, some 7] (some 7)
      (fun n => n)).2 () 7 7 rfl rfl

/-!
Exchanger (src/exchanger.rs).

The single slot holds `Item::Empty | Waiting(v) | Busy`.  The pusher's two
loops are driven by slot observations: in Phase A (deposit) the slot can be
seen `Empty` (then the `Empty → Waiting` CAS either succeeds or loses a
race), `Waiting` or `Busy` (loop); in Phase B (await) the slot — which
holds the pusher's own node until a popper claims it — can be seen still
`Waiting` (a reclaim CAS `Waiting → Empty` may succeed or lose to a claim)
or `Busy` (the `Busy → Empty` CAS must succeed; return `Ok`).  Each
observation also carries its CAS outcome where one is attempted.
-/

/-- One Phase-A slot observation: what `item.load` saw, with the outcome of
the `Empty → Waiting` CAS when it was attempted. -/
inductive AObs where
  | isEmpty (casOk : Bool)
  | isWaiting
  | isBusy
deriving DecidableEq, Repr

/-- One Phase-B slot observation.  `stillWaiting casOk` is a load that saw
the pusher's own `Waiting` node, with the outcome of the reclaim CAS if the
strategy stopped waiting; `claimed` is a load that saw `Busy`. -/
inductive BObs where
  | stillWaiting (casOk : Bool)
  | claimed
deriving DecidableEq, Repr

/-- Phase A of `Exchanger::exchange_push` (src/exchanger.rs lines 41-77):
deposit loop.  `Except.error v` models strategy exhaustion (the value is
extracted back out of the unused node); `Except.ok ()` means the value is
now deposited in the slot. -/
def phaseA {σ T : Type} (tse : σ → Bool × σ) :
    Nat → σ → List AObs → T →
    Option (Except T Unit × σ × List AObs)
  | 0, _, _, _ => none
  | fuel + 1, st, obs, v =>
    let r := tse st
    if r.1 then
      match obs with
      | [] => none
      | AObs.isEmpty ok :: obs' =>
        if ok then some (Except.ok (), r.2, obs')
        else phaseA tse fuel r.2 obs' v
      | AObs.isWaiting :: obs' => phaseA tse fuel r.2 obs' v
      | AObs.isBusy :: obs' => phaseA tse fuel r.2 obs' v
    else
      some (Except.error v, r.2, obs)

/-- Phase B of `Exchanger::exchange_push` (src/exchanger.rs lines 79-125):
await loop over the deposited value `v`.  `Except.error v` is the reclaim
path (`Waiting → Empty` CAS succeeded, the pusher recovers its own value);
`Except.ok ()` is the handoff path (slot seen `Busy`). -/
def phaseB {σ T : Type} (rce : σ → Bool × σ) :
    Nat → σ → List BObs → T →
    Option (Except T Unit × σ × List BObs)
  | 0, _, _, _ => none
  | fuel + 1, st, obs, v =>
    match obs with
    | [] => none
    | BObs.stillWaiting ok :: obs' =>
      let r := rce st
      if r.1 then phaseB rce fuel r.2 obs' v
      else if ok then some (Except.error v, r.2, obs')
      else phaseB rce fuel r.2 obs' v
    | BObs.claimed :: obs' => some (Except.ok (), st, obs')

/-- `Exchanger::exchange_push` (src/exchanger.rs lines 27-126): Phase A
then Phase B. -/
def exchangePushO {σ T : Type} (tse rce : σ → Bool × σ) (fuel : Nat)
    (st : σ) (obsA : List AObs) (obsB : List BObs) (v : T) :
    Option (Except T Unit × σ × List AObs × List BObs) :=
  match phaseA tse fuel st obsA v with
  | none => none
  | some (Except.error w, st', obsA') => some (Except.error w, st', obsA', obsB)
  | some (Except.ok (), st', obsA') =>
    match phaseB rce fuel st' obsB v with
    | none => none
    | some (r, st'', obsB') => some (r, st'', obsA', obsB')

/-- One pop-side slot observation (`Exchanger::exchange_pop` loop):
an `Empty` load, a `Waiting` load carrying the deposited value and the
outcome of the `Waiting → Busy` CAS, or a `Busy` load. -/
inductive PObs (T : Type) where
  | isEmpty
  | isWaiting (v : T) (casOk : Bool)
  | isBusy
deriving DecidableEq, Repr

/-- `Exchanger::exchange_pop` (src/exchanger.rs lines 128-172): while
`try_exchange()` holds, load the slot; `Empty` fires `on_no_contention`;
`Waiting(v)` attempts the claim CAS, returning `Ok(v)` on success and
firing `on_contention` on failure; `Busy` fires `on_contention`. -/
def exchangePopO {σ T : Type} (te : σ → Bool × σ) (onC onNC : σ → σ) :
    Nat → σ → List (PObs T) →
    Option (Except Unit T × σ × List (PObs T))
  | 0, _, _ => none
  | fuel + 1, st, obs =>
    let r := te st
    if r.1 then
      match obs with
      | [] => none
      | PObs.isEmpty :: obs' => exchangePopO te onC onNC fuel (onNC r.2) obs'
      | PObs.isWaiting v ok :: obs' =>
        if ok then some (Except.ok v, r.2, obs')
        else exchangePopO te onC onNC fuel (onC r.2) obs'
      | PObs.isBusy :: obs' => exchangePopO te onC onNC fuel (onC r.2) obs'
    else
      some (Except.error (), r.2, obs)

/-!
Elimination array (src/elimination_array.rs).  `exchange_push` loops
`while strategy.try_push()`: read `num_exchangers`, pick a random
exchanger (the pick does not matter in this model — every exchanger is
described by the same observation streams) and delegate; an `Err(i)` from
the exchanger re-enters the loop with `item = i`.
-/

/-- `EliminationArray::exchange_push` (src/elimination_array.rs
lines 20-42). -/
def arrayPushO {σ T : Type} (tpA : σ → Bool × σ) (numExch : σ → Nat → Nat)
    (tse rce : σ → Bool × σ) (total : Nat) :
    Nat → σ → List AObs → List BObs → T →
    Option (Except T Unit × σ × List AObs × List BObs)
  | 0, _, _, _, _ => none
  | fuel + 1, st, obsA, obsB, v =>
    let r := tpA st
    if r.1 then
      let _w := numExch r.2 total
      match exchangePushO tse rce fuel r.2 obsA obsB v with
      | none => none
      | some (Except.ok (), st', obsA', obsB') =>
        some (Except.ok (), st', obsA', obsB')
      | some (Except.error v', st', obsA', obsB') =>
        arrayPushO tpA numExch tse rce total fuel st' obsA' obsB' v'
    else
      some (Except.error v, r.2, obsA, obsB)

/-- `EliminationArray::exchange_pop` (src/elimination_array.rs
lines 44-62). -/
def arrayPopO {σ T : Type} (tpA : σ → Bool × σ) (numExch : σ → Nat → Nat)
    (te : σ → Bool × σ) (onC onNC : σ → σ) (total : Nat) :
    Nat → σ → List (PObs T) →
    Option (Except Unit T × σ × List (PObs T))
  | 0, _, _ => none
  | fuel + 1, st, obs =>
    let r := tpA st
    if r.1 then
      let _w := numExch r.2 total
      match exchangePopO te onC onNC fuel r.2 obs with
      | none => none
      | some (Except.ok v, st', obs') => some (Except.ok v, st', obs')
      | some (Except.error (), st', obs') =>
        arrayPopO tpA numExch te onC onNC total fuel st' obs'
    else
      some (Except.error (), r.2, obs)

lemma treiberPushO_error {σ T : Type} (tp : σ → Bool × σ) :
    ∀ (fuel : Nat) (st : σ) (cas : List Bool) (v : T) (chain : List T)
      (w : T) (st' : σ) (chain' : List T) (cas' : List Bool),
      treiberPushO tp fuel st cas v chain =
        some (Except.error w, st', chain', cas') →
      w = v ∧ chain' = chain := by
  intro fuel
  induction fuel with
  | zero => intro st cas v chain w st' chain' cas' h; simp [treiberPushO] at h
  | succ f ih =>
    intro st cas v chain w st' chain' cas' h
    by_cases hb : (tp st).1
    · simp only [treiberPushO, hb, if_true] at h
      cases cas with
      | nil => simp at h
      | cons ok cas'' =>
        by_cases hok : ok
        · simp [hok] at h
        · simp only [hok, if_neg, Bool.false_eq_true, not_false_eq_true,
            if_false] at h
          exact ih _ _ _ _ _ _ _ _ h
    · simp only [treiberPushO, hb, Bool.false_eq_true, if_false,
        Option.some.injEq, Prod.mk.injEq] at h
      obtain ⟨h1, -, h3, -⟩ := h
      injection h1 with h1
      exact ⟨h1.symm, h3.symm⟩

lemma phaseA_error {σ T : Type} (tse : σ → Bool × σ) :
    ∀ (fuel : Nat) (st : σ) (obs : List AObs) (v w : T) (st' : σ)
      (obs' : List AObs),
      phaseA tse fuel st obs v = some (Except.error w, st', obs') →
      w = v := by
  intro fuel
  induction fuel with
  | zero => intro st obs v w st' obs' h; simp [phaseA] at h
  | succ f ih =>
    intro st obs v w st' obs' h
    by_cases hb : (tse st).1
    · simp only [phaseA, hb, if_true] at h
      cases obs with
      | nil => simp at h
      | cons o obs'' =>
        cases o with
        | isEmpty ok =>
          by_cases hok : ok
          · simp [hok] at h
          · simp only [hok, Bool.false_eq_true, if_false] at h
            exact ih _ _ _ _ _ _ h
        | isWaiting => exact ih _ _ _ _ _ _ h
        | isBusy => exact ih _ _ _ _ _ _ h
    · simp only [phaseA, hb, Bool.false_eq_true, if_false,
        Option.some.injEq, Prod.mk.injEq] at h
      have h1 := h.1
      injection h1 with h1
      exact h1.symm

lemma phaseB_error {σ T : Type} (rce : σ → Bool × σ) :
    ∀ (fuel : Nat) (st : σ) (obs : List BObs) (v w : T) (st' : σ)
      (obs' : List BObs),
      phaseB rce fuel st obs v = some (Except.error w, st', obs') →
      w = v := by
  intro fuel
  induction fuel with
  | zero => intro st obs v w st' obs' h; simp [phaseB] at h
  | succ f ih =>
    intro st obs v w st' obs' h
    cases obs with
    | nil => simp [phaseB] at h
    | cons o obs'' =>
      cases o with
      | stillWaiting ok =>
        by_cases hb : (rce st).1
        · simp only [phaseB, hb, if_true] at h
          exact ih _ _ _ _ _ _ h
        · by_cases hok : ok
          · simp only [phaseB, hb, Bool.false_eq_true, if_false, hok,
              if_true, Option.some.injEq, Prod.mk.injEq] at h
            have h1 := h.1
            injection h1 with h1
            exact h1.symm
          · simp only [phaseB, hb, hok, Bool.false_eq_true, if_false] at h
            exact ih _ _ _ _ _ _ h
      | claimed =>
        simp only [phaseB, Option.some.injEq, Prod.mk.injEq] at h
        exact absurd h.1 (fun hx => Except.noConfusion hx)

lemma exchangePushO_error {σ T : Type} (tse rce : σ → Bool × σ) :
    ∀ (fuel : Nat) (st : σ) (obsA : List AObs) (obsB : List BObs) (v w : T)
      (st' : σ) (obsA' : List AObs) (obsB' : List BObs),
      exchangePushO tse rce fuel st obsA obsB v =
        some (Except.error w, st', obsA', obsB') →
      w = v := by
  intro fuel st obsA obsB v w st' obsA' obsB' h
  unfold exchangePushO at h
  cases hA : phaseA tse fuel st obsA v with
  | none => rw [hA] at h; simp at h
  | some r =>
    obtain ⟨rr, stA, obsA₁⟩ := r
    rw [hA] at h
    cases rr with
    | error wa =>
      simp only [Option.some.injEq, Prod.mk.injEq] at h
      have h1 := h.1
      injection h1 with h1
      exact h1 ▸ phaseA_error tse fuel st obsA v wa stA obsA₁ hA
    | ok u =>
      cases u
      have h' : (match phaseB rce fuel stA obsB v with
          | none => none
          | some (r, st'', obsB') => some (r, st'', obsA₁, obsB')) =
          some (Except.error w, st', obsA', obsB') := h
      cases hB : phaseB rce fuel stA obsB v with
      | none => rw [hB] at h'; simp at h'
      | some rb =>
        obtain ⟨rbr, stB, obsB₁⟩ := rb
        rw [hB] at h'
        simp only [Option.some.injEq, Prod.mk.injEq] at h'
        cases rbr with
        | error wb =>
          have h1 := h'.1
          injection h1 with h1
          exact h1 ▸ phaseB_error rce fuel stA obsB v wb stB obsB₁ hB
        | ok u => exact absurd h'.1 (fun hx => Except.noConfusion hx)

lemma arrayPushO_error {σ T : Type} (tpA : σ → Bool × σ)
    (numExch : σ → Nat → Nat) (tse rce : σ → Bool × σ) (total : Nat) :
    ∀ (fuel : Nat) (st : σ) (obsA : List AObs) (obsB : List BObs) (v w : T)
      (st' : σ) (obsA' : List AObs) (obsB' : List BObs),
      arrayPushO tpA numExch tse rce total fuel st obsA obsB v =
        some (Except.error w, st', obsA', obsB') →
      w = v := by
  intro fuel
  induction fuel with
  | zero => intro st obsA obsB v w st' obsA' obsB' h; simp [arrayPushO] at h
  | succ f ih =>
    intro st obsA obsB v w st' obsA' obsB' h
    by_cases hb : (tpA st).1
    · simp only [arrayPushO, hb, if_true] at h
      cases hE : exchangePushO tse rce f (tpA st).2 obsA obsB v with
      | none => rw [hE] at h; simp at h
      | some r =>
        obtain ⟨rr, stE, obsAE, obsBE⟩ := r
        rw [hE] at h
        cases rr with
        | error vE =>
          have hvE : vE = v :=
            exchangePushO_error tse rce f (tpA st).2 obsA obsB v vE stE
              obsAE obsBE hE
          have := ih stE obsAE obsBE vE w st' obsA' obsB' h
          exact this.trans hvE
        | ok u =>
          cases u
          simp only [Option.some.injEq, Prod.mk.injEq] at h
          exact absurd h.1 (fun hx => Except.noConfusion hx)
    · simp only [arrayPushO, hb, Bool.false_eq_true, if_false,
        Option.some.injEq, Prod.mk.injEq] at h
      have h1 := h.1
      injection h1 with h1
      exact h1.symm

/-- C4: every push layer is atomic on failure and hands the exact value
back.  For every strategy, oracle and fuel: if `TreiberStack::push(v)`
returns `Err(w)` then `w = v` and the head chain is unchanged; if
`Exchanger::exchange_push(v)` returns `Err(w)` then `w = v`; if
`EliminationArray::exchange_push(v)` returns `Err(w)` then `w = v`. -/
theorem c4_push_error_returns_value :
    (∀ {σ T : Type} (tp : σ → Bool × σ) (fuel : Nat) (st : σ)
      (cas : List Bool) (v : T) (chain : List T) (w : T) (st' : σ)
      (chain' : List T) (cas' : List Bool),
      treiberPushO tp fuel st cas v chain =
        some (Except.error w, st', chain', cas') →
      w = v ∧ chain' = chain) ∧
    (∀ {σ T : Type} (tse rce : σ → Bool × σ) (fuel : Nat) (st : σ)
      (obsA : List AObs) (obsB : List BObs) (v w : T) (st' : σ)
      (obsA' : List AObs) (obsB' : List BObs),
      exchangePushO tse rce fuel st obsA obsB v =
        some (Except.error w, st', obsA', obsB') →
      w = v) ∧
    (∀ {σ T : Type} (tpA : σ → Bool × σ) (numExch : σ → Nat → Nat)
      (tse rce : σ → Bool × σ) (total fuel : Nat) (st : σ)
      (obsA : List AObs) (obsB : List BObs) (v w : T) (st' : σ)
      (obsA' : List AObs) (obsB' : List BObs),
      arrayPushO tpA numExch tse rce total fuel st obsA obsB v =
        some (Except.error w, st', obsA', obsB') →
      w = v) :=
  ⟨fun tp fuel st cas v chain w st' chain' cas' h =>
      treiberPushO_error tp fuel st cas v chain w st' chain' cas' h,
   fun tse rce fuel st obsA obsB v w st' obsA' obsB' h =>
      exchangePushO_error tse rce fuel st obsA obsB v w st' obsA' obsB' h,
   fun tpA numExch tse rce total fuel st obsA obsB v w st' obsA' obsB' h =>
      arrayPushO_error tpA numExch tse rce total fuel st obsA obsB v w st'
        obsA' obsB' h⟩

/-- Witness for `c4_push_error_returns_value`: concrete failing runs of the
three layers with value 5 — a zero-budget Treiber push, an exchanger push
whose strategy gives up before depositing, and an elimination-array push
with a zero retry budget — each return `Err 5`. -/
theorem c4_push_error_returns_value_witness :
    ((5 : Nat) = 5 ∧ ([7] : List Nat) = [7]) ∧
    (5 : Nat) = 5 ∧ (5 : Nat) = 5 :=
  ⟨c4_push_error_returns_value.1 alwaysFalseHook 1 () [] 5 [7] 5 () [7] []
      rfl,
   c4_push_error_returns_value.2.1 alwaysFalseHook alwaysFalseHook 1 ()
      [AObs.isEmpty false] [] 5 5 () [AObs.isEmpty false] [] rfl,
   c4_push_error_returns_value.2.2 alwaysFalseHook (fun _ t => t)
      alwaysFalseHook alwaysFalseHook 1 1 () [] [] 5 5 () [] [] rfl⟩

/-!
Exchanger slot traces (src/exchanger.rs), for the rendezvous-value claim.

The slot (`Atomic<Item<T>>`) moves only by the four successful CAS steps of
the protocol: `Empty → Waiting(v)` (pusher deposit), `Waiting → Busy`
(popper claim, which returns the slot's value), `Waiting → Empty` (pusher
reclaim) and `Busy → Empty` (pusher acknowledgment).  A trace is a list of
those steps; it is valid when every step's expected state matches.
-/

/-- `Item` (src/exchanger.rs lines 9-14). -/
inductive Item (T : Type) where
  | empty
  | waiting (v : T)
  | busy
deriving DecidableEq, Repr

/-- A successful CAS on the slot, by either side of the protocol. -/
inductive XEvent (T : Type) where
  | deposit (v : T)
  | claim
  | reclaim
  | clear
deriving DecidableEq, Repr

/-- The slot transition induced by one successful CAS; `none` when the
expected state does not match (such a CAS cannot succeed). -/
def stepSlot {T : Type} : Item T → XEvent T → Option (Item T)
  | Item.empty, XEvent.deposit v => some (Item.waiting v)
  | Item.waiting _, XEvent.claim => some Item.busy
  | Item.waiting _, XEvent.reclaim => some Item.empty
  | Item.busy, XEvent.clear => some Item.empty
  | _, _ => none

/-- Runs a trace from a slot state and collects, in order, the values the
claiming poppers read out of the slot (src/exchanger.rs lines 147-161: the
`Waiting → Busy` CAS returns the `Waiting` node's value).  `none` when the
trace is invalid. -/
def popValues {T : Type} : Item T → List (XEvent T) → Option (List T)
  | _, [] => some []
  | s, e :: es =>
    match stepSlot s e with
    | none => none
    | some s' =>
      match popValues s' es with
      | none => none
      | some rest =>
        match s, e with
        | Item.waiting v, XEvent.claim => some (v :: rest)
        | _, _ => some rest

/-- The values successfully deposited by pushers that a popper then
claimed, read directly off the event list: a `deposit v` immediately
followed by a `claim`. -/
def depClaimed {T : Type} : List (XEvent T) → List T
  | XEvent.deposit v :: XEvent.claim :: rest => v :: depClaimed rest
  | _ :: rest => depClaimed rest
  | [] => []

lemma popValues_eq_depClaimed {T : Type} :
    ∀ (n : Nat) (tr : List (XEvent T)), tr.length ≤ n →
      ∀ l, popValues Item.empty tr = some l → l = depClaimed tr := by
  intro n
  induction n with
  | zero =>
    intro tr hn l h
    rw [List.eq_nil_of_length_eq_zero (Nat.le_zero.mp hn)] at h ⊢
    simp [popValues] at h
    simp [depClaimed, h.symm]
  | succ n ih =>
    intro tr hn l h
    match tr with
    | [] =>
      simp [popValues] at h
      simp [depClaimed, h.symm]
    | XEvent.claim :: es => simp [popValues, stepSlot] at h
    | XEvent.reclaim :: es => simp [popValues, stepSlot] at h
    | XEvent.clear :: es => simp [popValues, stepSlot] at h
    | XEvent.deposit v :: es =>
      simp only [popValues, stepSlot] at h
      match es, h with
      | [], h =>
        simp [popValues] at h
        simp [depClaimed, h.symm]
      | XEvent.deposit w :: es', h =>
        simp [popValues, stepSlot] at h
      | XEvent.clear :: es', h =>
        simp [popValues, stepSlot] at h
      | XEvent.reclaim :: es', h =>
        simp only [popValues, stepSlot] at h
        have hlen : es'.length ≤ n := by
          simp only [List.length_cons] at hn; omega
        cases hrest : popValues Item.empty es' with
        | none => rw [hrest] at h; simp at h
        | some rest =>
          rw [hrest] at h
          simp only [Option.some.injEq] at h
          have := ih es' hlen rest hrest
          simp only [depClaimed]
          rw [← h, this]
      | XEvent.claim :: es', h =>
        simp only [popValues, stepSlot] at h
        match es', h with
        | [], h =>
          simp [popValues] at h
          simp [depClaimed, h.symm]
        | XEvent.deposit w :: es'', h =>
          simp [popValues, stepSlot] at h
        | XEvent.claim :: es'', h =>
          simp [popValues, stepSlot] at h
        | XEvent.reclaim :: es'', h =>
          simp [popValues, stepSlot] at h
        | XEvent.clear :: es'', h =>
          simp only [popValues, stepSlot] at h
          have hlen : es''.length ≤ n := by
            simp only [List.length_cons] at hn; omega
          cases hrest : popValues Item.empty es'' with
          | none => rw [hrest] at h; simp at h
          | some rest =>
            rw [hrest] at h
            simp only [Option.some.injEq] at h
            have := ih es'' hlen rest hrest
            simp only [depClaimed]
            rw [← h, this]

/-- C5: over any valid sequence of successful slot CAS steps starting from
an empty exchanger, the values returned by the successful pops
(`Waiting → Busy` claims, each reading the value out of the slot) are
exactly, in order, the values the pushers deposited that a popper then
claimed — no duplication, no loss; in particular a claim of `Waiting(v)`
returns that same `v`, since a valid trace only reaches `Waiting(v)`
through `deposit v`. -/
theorem c5_rendezvous_transfers_deposited :
    ∀ {T : Type} (tr : List (XEvent T)) (l : List T),
      popValues Item.empty tr = some l → l = depClaimed tr := by
  intro T tr l h
  exact popValues_eq_depClaimed tr.length tr le_rfl l h

/-- Witness for `c5_rendezvous_transfers_deposited`: the trace
"deposit 1, claim, clear, deposit 2, reclaim, deposit 3, claim" is valid,
its pops read `[1, 3]`, and `depClaimed` of the trace is `[1, 3]`. -/
theorem c5_rendezvous_transfers_deposited_witness :
    ([1, 3] : List Nat) =
      depClaimed [XEvent.deposit 1, XEvent.claim, XEvent.clear,
        XEvent.deposit 2, XEvent.reclaim, XEvent.deposit 3, XEvent.claim] :=
  c5_rendezvous_transfers_deposited _ _ rfl

/-!
Composite `Stack` (src/lib.rs), first at the granularity of the two layer
calls alone: `instrumented_push` (lines 40-67) and `instrumented_pop`
(lines 73-100) loop over `treiber.push/pop` and, when
`use_elimination_array()` says so, `elimination_array.exchange_push/pop`.
Each layer call is one oracle response.  Event recording is a no-op.
-/

/-- The loop of `Stack::instrumented_push` (src/lib.rs lines 47-64) with
the two layers abstracted to response lists: `Except.ok ()` breaks the
loop, `Except.error i` re-enters it with `item = i` (the carried item does
not influence the control flow, so responses carry no value). -/
def stackPushLoop {σ : Type} (useElim : σ → Bool × σ) :
    Nat → σ → List (Except Unit Unit) → List (Except Unit Unit) →
    Option Unit
  | 0, _, _, _ => none
  | fuel + 1, st, tres, arrs =>
    match tres with
    | [] => none
    | Except.ok () :: _ => some ()
    | Except.error () :: tres' =>
      let r := useElim st
      if r.1 then
        match arrs with
        | [] => none
        | Except.ok () :: _ => some ()
        | Except.error () :: arrs' =>
          stackPushLoop useElim fuel r.2 tres' arrs'
      else stackPushLoop useElim fuel r.2 tres' arrs

/-- The loop of `Stack::instrumented_pop` (src/lib.rs lines 78-95) with the
two layers abstracted to response lists: `treiber.pop` answers
`Ok(Option<T>)` (breaking with that item) or `Err(())`;
`elimination_array.exchange_pop` answers `Ok(v)` (breaking with `Some(v)`)
or `Err(())`. -/
def stackPopLoop {σ T : Type} (useElim : σ → Bool × σ) :
    Nat → σ → List (Except Unit (Option T)) → List (Except Unit T) →
    Option (Option T)
  | 0, _, _, _ => none
  | fuel + 1, st, tres, arrs =>
    match tres with
    | [] => none
    | Except.ok item :: _ => some item
    | Except.error () :: tres' =>
      let r := useElim st
      if r.1 then
        match arrs with
        | [] => none
        | Except.ok v :: _ => some (some v)
        | Except.error () :: arrs' =>
          stackPopLoop useElim fuel r.2 tres' arrs'
      else stackPopLoop useElim fuel r.2 tres' arrs

lemma stackPopLoop_none_mem {σ T : Type} (useElim : σ → Bool × σ) :
    ∀ (fuel : Nat) (st : σ) (tres : List (Except Unit (Option T)))
      (arrs : List (Except Unit T)),
      stackPopLoop useElim fuel st tres arrs = some none →
      Except.ok (none : Option T) ∈ tres := by
  intro fuel
  induction fuel with
  | zero => intro st tres arrs h; simp [stackPopLoop] at h
  | succ f ih =>
    intro st tres arrs h
    match tres with
    | [] => simp [stackPopLoop] at h
    | Except.ok item :: tres' =>
      simp only [stackPopLoop, Option.some.injEq] at h
      rw [h]
      exact List.mem_cons_self _ _
    | Except.error () :: tres' =>
      simp only [stackPopLoop] at h
      by_cases hb : (useElim st).1
      · rw [if_pos hb] at h
        match arrs with
        | [] => simp at h
        | Except.ok v :: arrs' => simp at h
        | Except.error () :: arrs' =>
          exact List.mem_cons_of_mem _ (ih _ tres' arrs' h)
      · rw [if_neg hb] at h
        exact List.mem_cons_of_mem _ (ih _ tres' arrs h)

lemma stackPopLoop_all_error {σ T : Type} (useElim : σ → Bool × σ) :
    ∀ (fuel : Nat) (st : σ) (tres : List (Except Unit (Option T)))
      (arrs : List (Except Unit T)),
      (∀ r ∈ tres, r = Except.error ()) →
      (∀ a ∈ arrs, a = Except.error ()) →
      stackPopLoop useElim fuel st tres arrs = none := by
  intro fuel
  induction fuel with
  | zero => intro st tres arrs _ _; rfl
  | succ f ih =>
    intro st tres arrs ht ha
    match tres with
    | [] => rfl
    | Except.ok item :: tres' =>
      exact absurd (ht _ (List.mem_cons_self _ _)) (fun hx =>
        Except.noConfusion hx)
    | Except.error () :: tres' =>
      have ht' : ∀ r ∈ tres', r = Except.error () :=
        fun r hr => ht r (List.mem_cons_of_mem _ hr)
      simp only [stackPopLoop]
      by_cases hb : (useElim st).1
      · rw [if_pos hb]
        match arrs with
        | [] => rfl
        | Except.ok v :: arrs' =>
          exact absurd (ha _ (List.mem_cons_self _ _)) (fun hx =>
            Except.noConfusion hx)
        | Except.error () :: arrs' =>
          exact ih _ tres' arrs' ht'
            (fun a haa => ha a (List.mem_cons_of_mem _ haa))
      · rw [if_neg hb]
        exact ih _ tres' arrs ht' ha

lemma stackPushLoop_all_error {σ : Type} (useElim : σ → Bool × σ) :
    ∀ (fuel : Nat) (st : σ) (tres arrs : List (Except Unit Unit)),
      (∀ r ∈ tres, r = Except.error ()) →
      (∀ a ∈ arrs, a = Except.error ()) →
      stackPushLoop useElim fuel st tres arrs = none := by
  intro fuel
  induction fuel with
  | zero => intro st tres arrs _ _; rfl
  | succ f ih =>
    intro st tres arrs ht ha
    match tres with
    | [] => rfl
    | Except.ok () :: tres' =>
      exact absurd (ht _ (List.mem_cons_self _ _)) (fun hx =>
        Except.noConfusion hx)
    | Except.error () :: tres' =>
      have ht' : ∀ r ∈ tres', r = Except.error () :=
        fun r hr => ht r (List.mem_cons_of_mem _ hr)
      simp only [stackPushLoop]
      by_cases hb : (useElim st).1
      · rw [if_pos hb]
        match arrs with
        | [] => rfl
        | Except.ok () :: arrs' =>
          exact absurd (ha _ (List.mem_cons_self _ _)) (fun hx =>
            Except.noConfusion hx)
        | Except.error () :: arrs' =>
          exact ih _ tres' arrs' ht'
            (fun a haa => ha a (List.mem_cons_of_mem _ haa))
      · rw [if_neg hb]
        exact ih _ tres' arrs ht' ha

/-- C2: (1) `Stack::pop` yields `None` only when some `treiber.pop` call of
the loop answered `Ok(None)` — emptiness actually witnessed; (2) if every
layer response is a contention signal `Err`, the pop loop never returns at
all (in particular no `Err` escapes and no `None` is fabricated); (3)
likewise `Stack::push` only returns by a layer `Ok` — with only `Err`
responses it never returns, and its result type has no error case. -/
theorem c2_pop_none_needs_witnessed_empty :
    (∀ {σ T : Type} (useElim : σ → Bool × σ) (fuel : Nat) (st : σ)
      (tres : List (Except Unit (Option T))) (arrs : List (Except Unit T)),
      stackPopLoop useElim fuel st tres arrs = some none →
      Except.ok (none : Option T) ∈ tres) ∧
    (∀ {σ T : Type} (useElim : σ → Bool × σ) (fuel : Nat) (st : σ)
      (tres : List (Except Unit (Option T))) (arrs : List (Except Unit T)),
      (∀ r ∈ tres, r = Except.error ()) →
      (∀ a ∈ arrs, a = Except.error ()) →
      stackPopLoop useElim fuel st tres arrs = none) ∧
    (∀ {σ : Type} (useElim : σ → Bool × σ) (fuel : Nat) (st : σ)
      (tres arrs : List (Except Unit Unit)),
      (∀ r ∈ tres, r = Except.error ()) →
      (∀ a ∈ arrs, a = Except.error ()) →
      stackPushLoop useElim fuel st tres arrs = none) :=
  ⟨fun useElim fuel st tres arrs h =>
      stackPopLoop_none_mem useElim fuel st tres arrs h,
   fun useElim fuel st tres arrs ht ha =>
      stackPopLoop_all_error useElim fuel st tres arrs ht ha,
   fun useElim fuel st tres arrs ht ha =>
      stackPushLoop_all_error useElim fuel st tres arrs ht ha⟩

/-- Witness for `c2_pop_none_needs_witnessed_empty`: a pop loop that first
sees Treiber contention and an array miss, then a witnessed empty chain,
returns `None` and indeed contains the `Ok(None)` response; with only
`Err` responses both loops return nothing. -/
theorem c2_pop_none_needs_witnessed_empty_witness :
    Except.ok (none : Option Nat) ∈
      [Except.error (), Except.ok (none : Option Nat)] ∧
    stackPopLoop alwaysTrueHook 2 ()
      ([Except.error ()] : List (Except Unit (Option Nat)))
      ([Except.error ()] : List (Except Unit Nat)) = none ∧
    stackPushLoop alwaysTrueHook 2 () [Except.error ()] [Except.error ()] =
      none :=
  ⟨c2_pop_none_needs_witnessed_empty.1 alwaysTrueHook 2 ()
      [Except.error (), Except.ok none] [Except.error ()] rfl,
   c2_pop_none_needs_witnessed_empty.2.1 alwaysTrueHook 2 ()
      [Except.error ()] [Except.error ()]
      (fun _ hr => List.mem_singleton.mp hr)
      (fun _ ha => List.mem_singleton.mp ha),
   c2_pop_none_needs_witnessed_empty.2.2 alwaysTrueHook 2 ()
      [Except.error ()] [Except.error ()]
      (fun _ hr => List.mem_singleton.mp hr)
      (fun _ ha => List.mem_singleton.mp ha)⟩

/-!
Composite `Stack` with the layers modelled concretely.  A push/pop
strategy is the bundle of hooks the layers consult (src/lib.rs traits
`PushStrategy`/`PopStrategy` together with the treiber_stack,
elimination_array and exchanger strategy traits).
-/

/-- The hooks a push strategy provides across all layers. -/
structure PushStrat (σ : Type) where
  tryPushT : σ → Bool × σ
  useElim : σ → Bool × σ
  tryPushA : σ → Bool × σ
  numExch : σ → Nat → Nat
  tryStartExchange : σ → Bool × σ
  retryCheckExchanged : σ → Bool × σ

/-- The hooks a pop strategy provides across all layers. -/
structure PopStrat (σ : Type) where
  tryPopT : σ → Bool × σ
  useElim : σ → Bool × σ
  tryPopA : σ → Bool × σ
  numExch : σ → Nat → Nat
  tryExchange : σ → Bool × σ
  onContention : σ → σ
  onNoContention : σ → σ

/-- `ExpRetryStrategy` as a push strategy; `use_elimination_array` is
constantly `true` (src/strategy.rs lines 274-276). -/
def expPushStrat : PushStrat ExpRetryStrategy :=
  { tryPushT := ExpRetryStrategy.treiberTryPush,
    useElim := fun s => (true, s),
    tryPushA := ExpRetryStrategy.elimTryPush,
    numExch := ExpRetryStrategy.numExchangers,
    tryStartExchange := ExpRetryStrategy.tryStartExchange,
    retryCheckExchanged := ExpRetryStrategy.retryCheckExchanged }

/-- `ExpRetryStrategy` as a pop strategy; `use_elimination_array` is
constantly `true` (src/strategy.rs lines 284-286). -/
def expPopStrat : PopStrat ExpRetryStrategy :=
  { tryPopT := ExpRetryStrategy.treiberTryPop,
    useElim := fun s => (true, s),
    tryPopA := ExpRetryStrategy.elimTryPop,
    numExch := ExpRetryStrategy.numExchangers,
    tryExchange := ExpRetryStrategy.tryExchange,
    onContention := ExpRetryStrategy.onContention,
    onNoContention := ExpRetryStrategy.onNoContention }

/-- `NoEliminationStrategy` as a push strategy. -/
def noElimPushStrat : PushStrat NoEliminationStrategy :=
  { tryPushT := NoEliminationStrategy.treiberTryPush,
    useElim := NoEliminationStrategy.useElim,
    tryPushA := NoEliminationStrategy.elimTryPush,
    numExch := NoEliminationStrategy.numExchangers,
    tryStartExchange := NoEliminationStrategy.tryStartExchange,
    retryCheckExchanged := NoEliminationStrategy.retryCheckExchanged }

/-- `NoEliminationStrategy` as a pop strategy; `on_contention` and
`on_no_contention` keep their empty trait defaults
(src/exchanger.rs lines 209-210). -/
def noElimPopStrat : PopStrat NoEliminationStrategy :=
  { tryPopT := NoEliminationStrategy.treiberTryPop,
    useElim := NoEliminationStrategy.useElim,
    tryPopA := NoEliminationStrategy.elimTryPop,
    numExch := NoEliminationStrategy.numExchangers,
    tryExchange := NoEliminationStrategy.tryExchange,
    onContention := id,
    onNoContention := id }

/-- `TreiberStack::pop` (src/treiber_stack.rs lines 72-94) at chain level,
for composing into the `Stack` loops: the chain is the list of values from
`head` down, `cas` gives each CAS attempt's outcome.  (The pointer-level
snapshot behaviour of the same source function is studied separately in
`treiberPopSnap`; at chain level a retry re-examines the same chain, which
agrees with the source whenever a successful CAS happens while `head`
still equals the snapshot — true in particular in the single-threaded and
all-failure instantiations used below.) -/
def treiberPopC {σ T : Type} (tp : σ → Bool × σ) :
    Nat → σ → List Bool → List T →
    Option (Except Unit (Option T) × σ × List T × List Bool)
  | 0, _, _, _ => none
  | fuel + 1, st, cas, chain =>
    let r := tp st
    if r.1 then
      match chain with
      | [] => some (Except.ok none, r.2, chain, cas)
      | v :: rest =>
        match cas with
        | [] => none
        | ok :: cas' =>
          if ok then some (Except.ok (some v), r.2, rest, cas')
          else treiberPopC tp fuel r.2 cas' chain
    else
      some (Except.error (), r.2, chain, cas)

/-- `Stack::instrumented_push` (src/lib.rs lines 40-67) with concrete
layers: loop `treiber.push`; on `Err(v)` consult `use_elimination_array()`
and possibly `elimination_array.exchange_push`; on its `Err(v)` loop back.
Returns the chain and the final strategy state. -/
def instrumentedPush {σ T : Type} (ps : PushStrat σ) (total : Nat) :
    Nat → σ → List Bool → List AObs → List BObs → T → List T →
    Option (List T × σ)
  | 0, _, _, _, _, _, _ => none
  | fuel + 1, st, cas, obsA, obsB, v, chain =>
    match treiberPushO ps.tryPushT fuel st cas v chain with
    | none => none
    | some (Except.ok (), st₁, chain', _) => some (chain', st₁)
    | some (Except.error v₁, st₁, chain', cas') =>
      let r := ps.useElim st₁
      if r.1 then
        match arrayPushO ps.tryPushA ps.numExch ps.tryStartExchange
            ps.retryCheckExchanged total fuel r.2 obsA obsB v₁ with
        | none => none
        | some (Except.ok (), st₂, _, _) => some (chain', st₂)
        | some (Except.error v₂, st₂, obsA', obsB') =>
          instrumentedPush ps total fuel st₂ cas' obsA' obsB' v₂ chain'
      else
        instrumentedPush ps total fuel r.2 cas' obsA obsB v₁ chain'

/-- `Stack::instrumented_pop` (src/lib.rs lines 73-100) with concrete
layers.  Returns the popped item, the chain and the final strategy
state. -/
def instrumentedPop {σ T : Type} (ps : PopStrat σ) (total : Nat) :
    Nat → σ → List Bool → List (PObs T) → List T →
    Option (Option T × List T × σ)
  | 0, _, _, _, _ => none
  | fuel + 1, st, cas, obs, chain =>
    match treiberPopC ps.tryPopT fuel st cas chain with
    | none => none
    | some (Except.ok item, st₁, chain', _) => some (item, chain', st₁)
    | some (Except.error (), st₁, chain', cas') =>
      let r := ps.useElim st₁
      if r.1 then
        match arrayPopO ps.tryPopA ps.numExch ps.tryExchange ps.onContention
            ps.onNoContention total fuel r.2 obs with
        | none => none
        | some (Except.ok v, st₂, _) => some (some v, chain', st₂)
        | some (Except.error (), st₂, obs') =>
          instrumentedPop ps total fuel st₂ cas' obs' chain'
      else
        instrumentedPop ps total fuel r.2 cas' obs chain'

/-- Modelled from the spec: "Reduces the composite to a pure Treiber
stack" — the comparator that loops the plain `TreiberStack::push` alone
until it succeeds. -/
def treiberOnlyPush {σ T : Type} (tp : σ → Bool × σ) :
    Nat → σ → List Bool → T → List T → Option (List T × σ)
  | 0, _, _, _, _ => none
  | fuel + 1, st, cas, v, chain =>
    match treiberPushO tp fuel st cas v chain with
    | none => none
    | some (Except.ok (), st', chain', _) => some (chain', st')
    | some (Except.error v', st', chain', cas') =>
      treiberOnlyPush tp fuel st' cas' v' chain'

/-- Modelled from the spec: the comparator that loops the plain
`TreiberStack::pop` alone until it succeeds. -/
def treiberOnlyPop {σ T : Type} (tp : σ → Bool × σ) :
    Nat → σ → List Bool → List T → Option (Option T × List T × σ)
  | 0, _, _, _ => none
  | fuel + 1, st, cas, chain =>
    match treiberPopC tp fuel st cas chain with
    | none => none
    | some (Except.ok item, st', chain', _) => some (item, chain', st')
    | some (Except.error (), st', chain', cas') =>
      treiberOnlyPop tp fuel st' cas' chain'

/-- C9: with `NoEliminationStrategy` on both sides, every array-level and
exchanger-level hook (`use_elimination_array`, array `try_push`/`try_pop`,
`try_start_exchange`, `retry_check_exchanged`, `try_exchange`) returns
`false` in every state, and the composite `Stack::push` / `Stack::pop`
compute exactly what looping the plain `TreiberStack::push` /
`TreiberStack::pop` alone computes, on every oracle — the elimination
array is never used. -/
theorem c9_no_elimination_is_pure_treiber :
    (∀ s, (NoEliminationStrategy.useElim s).1 = false) ∧
    (∀ s, (NoEliminationStrategy.elimTryPush s).1 = false) ∧
    (∀ s, (NoEliminationStrategy.elimTryPop s).1 = false) ∧
    (∀ s, (NoEliminationStrategy.tryStartExchange s).1 = false) ∧
    (∀ s, (NoEliminationStrategy.retryCheckExchanged s).1 = false) ∧
    (∀ s, (NoEliminationStrategy.tryExchange s).1 = false) ∧
    (∀ {T : Type} (total fuel : Nat) (st : NoEliminationStrategy)
      (cas : List Bool) (obsA : List AObs) (obsB : List BObs) (v : T)
      (chain : List T),
      instrumentedPush noElimPushStrat total fuel st cas obsA obsB v chain =
        treiberOnlyPush NoEliminationStrategy.treiberTryPush fuel st cas v
          chain) ∧
    (∀ {T : Type} (total fuel : Nat) (st : NoEliminationStrategy)
      (cas : List Bool) (obs : List (PObs T)) (chain : List T),
      instrumentedPop noElimPopStrat total fuel st cas obs chain =
        treiberOnlyPop NoEliminationStrategy.treiberTryPop fuel st cas
          chain) := by
  refine ⟨fun s => rfl, fun s => rfl, fun s => rfl, fun s => rfl,
    fun s => rfl, fun s => rfl, ?_, ?_⟩
  · intro T total fuel
    induction fuel with
    | zero => intro st cas obsA obsB v chain; rfl
    | succ f ih =>
      intro st cas obsA obsB v chain
      simp only [instrumentedPush, treiberOnlyPush, noElimPushStrat]
      cases h : treiberPushO NoEliminationStrategy.treiberTryPush f st cas v
          chain with
      | none => rfl
      | some r =>
        obtain ⟨rr, st', chain', cas'⟩ := r
        cases rr with
        | ok u => cases u; rfl
        | error v' =>
          simp only [NoEliminationStrategy.useElim, Bool.false_eq_true,
            if_false]
          exact ih st' cas' obsA obsB v' chain'
  · intro T total fuel
    induction fuel with
    | zero => intro st cas obs chain; rfl
    | succ f ih =>
      intro st cas obs chain
      simp only [instrumentedPop, treiberOnlyPop, noElimPopStrat]
      cases h : treiberPopC NoEliminationStrategy.treiberTryPop f st cas
          chain with
      | none => rfl
      | some r =>
        obtain ⟨rr, st', chain', cas'⟩ := r
        cases rr with
        | ok item => rfl
        | error u =>
          cases u
          simp only [NoEliminationStrategy.useElim, Bool.false_eq_true,
            if_false]
          exact ih st' cas' obs chain'

/-!
Single-threaded runs.  With a single thread no CAS can fail, so every CAS
oracle entry is `true`; each `Stack` operation builds a fresh default
`ExpRetryStrategy` (src/lib.rs lines 43 and 76), whose first Treiber-level
`try_push`/`try_pop` answers `true`, so the Treiber layer succeeds at once
and the elimination array is never entered.  Fuel 2 and one CAS outcome
therefore suffice for each operation.
-/

/-- One public `Stack` operation. -/
inductive Op (T : Type) where
  | push (v : T)
  | pop

/-- A single-threaded run of the composite `Stack` (with the default
`ExpRetryStrategy`) over a list of operations: the list of pop outputs and
the final chain. -/
def runStackST {T : Type} : List (Op T) → List T → List (Option T) × List T
  | [], chain => ([], chain)
  | Op.push v :: ops, chain =>
    match instrumentedPush expPushStrat 1 2 ExpRetryStrategy.new [true] [] []
        v chain with
    | some (chain', _) => runStackST ops chain'
    | none => ([], chain)
  | Op.pop :: ops, chain =>
    match instrumentedPop expPopStrat 1 2 ExpRetryStrategy.new [true] []
        chain with
    | some (item, chain', _) =>
      let res := runStackST ops chain'
      (item :: res.1, res.2)
    | none => ([], chain)

/-- Modelled from the spec: the reference LIFO container — a growable
vector pushed and popped at its end, as in the repository's
single-threaded quickcheck test. -/
def vecPush {T : Type} (l : List T) (v : T) : List T := l ++ [v]

/-- Modelled from the spec: reference vector pop — returns and removes the
last element. -/
def vecPop {T : Type} (l : List T) : Option T × List T :=
  (l.getLast?, l.dropLast)

/-- A run of the reference LIFO container over the same operations. -/
def runVec {T : Type} : List (Op T) → List T → List (Option T) × List T
  | [], l => ([], l)
  | Op.push v :: ops, l => runVec ops (vecPush l v)
  | Op.pop :: ops, l =>
    let p := vecPop l
    let res := runVec ops p.2
    (p.1 :: res.1, res.2)

lemma runStackST_push {T : Type} (v : T) (ops : List (Op T))
    (chain : List T) :
    runStackST (Op.push v :: ops) chain = runStackST ops (v :: chain) :=
  rfl

lemma runStackST_pop_nil {T : Type} (ops : List (Op T)) :
    runStackST (Op.pop :: ops) ([] : List T) =
      ((none : Option T) :: (runStackST ops []).1, (runStackST ops []).2) :=
  rfl

lemma runStackST_pop_cons {T : Type} (v : T) (chain : List T)
    (ops : List (Op T)) :
    runStackST (Op.pop :: ops) (v :: chain) =
      (some v :: (runStackST ops chain).1, (runStackST ops chain).2) :=
  rfl

lemma runStackST_eq_runVec {T : Type} :
    ∀ (ops : List (Op T)) (chain : List T),
      (runStackST ops chain).1 = (runVec ops chain.reverse).1 := by
  intro ops
  induction ops with
  | nil => intro chain; rfl
  | cons op ops ih =>
    intro chain
    cases op with
    | push v =>
      rw [runStackST_push, ih (v :: chain)]
      simp only [runVec, vecPush, List.reverse_cons]
    | pop =>
      cases chain with
      | nil =>
        rw [runStackST_pop_nil]
        simp only [runVec, vecPop, List.reverse_nil, List.getLast?_nil,
          List.dropLast_nil]
        simp [ih []]
      | cons v chain' =>
        rw [runStackST_pop_cons]
        simp only [runVec, vecPop, List.reverse_cons,
          List.getLast?_concat, List.dropLast_concat]
        simp [ih chain']

/-- C1: in single-threaded execution (all CAS succeed, fresh default
strategy per operation) the composite `Stack` produces, on any sequence of
interleaved `push`/`pop` operations, exactly the outputs of the reference
LIFO container on the same sequence; in particular the sequence
`push 1, push 2, push 3, pop, pop, push 4, pop, pop` yields
`some 3, some 2, some 4, some 1` and a further pop yields `none`. -/
theorem c1_single_threaded_lifo :
    (∀ {T : Type} (ops : List (Op T)) (chain : List T),
      (runStackST ops chain).1 = (runVec ops chain.reverse).1) ∧
    (runStackST
        [Op.push 1, Op.push 2, Op.push 3, Op.pop, Op.pop, Op.push 4,
          Op.pop, Op.pop, Op.pop] ([] : List Nat)).1 =
      [some 3, some 2, some 4, some 1, none] :=
  ⟨fun ops chain => runStackST_eq_runVec ops chain, rfl⟩

end EBStack
